import Mathlib

/-!
Verification of the task-management backend (Express + Mongoose) against its
natural-language specification.  The definitions below are a shallow embedding
of `src/backend/routes/tasks.js` (which also contains the Mongoose `Task`
schema and the `protect` auth middleware) and `src/backend/routes/profile.js`.

Modelling conventions:
* Mongo ObjectIds and user ids are `String`s; dates are `Int` timestamps.
* The task store is a `List Task`; `Task.find`, `findOne`, `findByIdAndUpdate`,
  `findByIdAndDelete` become list operations.  Document ids are assumed unique
  in the store (Mongo guarantees `_id` uniqueness).
* Mongo's `.sort` is modelled by a stable insertion sort over the comparator
  the route builds (`sort[sortBy] = sortOrder === 'asc' ? 1 : -1`); Mongo
  compares the string fields (`title`, `priority`) lexicographically, which is
  the `String` linear order used here.
* `$regex a, $options: 'i'` is modelled as case-insensitive literal substring
  containment, which is the store's regex semantics for patterns free of regex
  metacharacters (the fragment exercised by every theorem below).
* express-validator semantics: `.optional()` skips only an absent field
  (an empty string is validated and fails `isIn`), `.trim()` is a sanitizer
  that rewrites the value before the checks run.
-/

namespace TaskMgmt

/-- Mongoose `Task` schema from `src/backend/routes/tasks.js` (models/Task.js
part): title, description, status/priority enums with defaults, nullable
dueDate, owning `user` reference, createdAt timestamp. -/
structure Task where
  id : String
  title : String
  description : String
  status : String
  priority : String
  dueDate : Option Int
  user : String
  createdAt : Int
deriving DecidableEq, Repr

/-- Allowed `status` values (`isIn(['todo', 'in-progress', 'completed'])`). -/
def statusEnum : List String := ["todo", "in-progress", "completed"]

/-- Allowed `priority` values (`isIn(['low', 'medium', 'high'])`). -/
def priorityEnum : List String := ["low", "medium", "high"]

/-- Allowed `sortBy` values. -/
def sortByEnum : List String := ["createdAt", "dueDate", "priority", "title"]

/-- Allowed `sortOrder` values. -/
def sortOrderEnum : List String := ["asc", "desc"]

/-- Error responses produced by the routes. -/
inductive ErrorResp where
  | validationError
  | notFound
  | unauthenticated
deriving DecidableEq, Repr

/-- HTTP status code of each error response. -/
def ErrorResp.statusCode : ErrorResp → Nat
  | .validationError => 400
  | .notFound => 404
  | .unauthenticated => 401

/-- Query string of `GET /api/tasks`; absent parameters are `none`. -/
structure ListQuery where
  status : Option String := none
  priority : Option String := none
  search : Option String := none
  sortBy : Option String := none
  sortOrder : Option String := none
deriving DecidableEq, Repr

/-- JavaScript `String.prototype.trim` on the character list: strip leading and
trailing whitespace. -/
def trimChars (l : List Char) : List Char :=
  ((l.dropWhile Char.isWhitespace).reverse.dropWhile Char.isWhitespace).reverse

/-- JavaScript `String.prototype.trim` (the `.trim()` sanitizer of
express-validator). -/
def trimStr (s : String) : String := ⟨trimChars s.data⟩

/-- Lexicographic comparison of character lists (the store's byte-wise string
comparison, restricted to the ASCII strings this system stores). -/
def charListLe : List Char → List Char → Bool
  | [], _ => true
  | _ :: _, [] => false
  | a :: as, b :: bs =>
    if a < b then true else if b < a then false else charListLe as bs

/-- Lexicographic string order used by the store's sort. -/
def strLe (a b : String) : Bool := charListLe a.data b.data

/-- JavaScript `split(sep)` for a single-character separator. -/
def splitOnChar (sep : Char) : List Char → List (List Char)
  | [] => [[]]
  | c :: t =>
    match splitOnChar sep t with
    | [] => if c == sep then [[], []] else [[c]]
    | h :: rest => if c == sep then [] :: h :: rest else (c :: h) :: rest

/-- JavaScript `header.split(' ')`. -/
def splitSpace (s : String) : List String :=
  (splitOnChar ' ' s.data).map (fun l => ⟨l⟩)

/-- JavaScript `s.startsWith(p)`. -/
def startsWithStr (s p : String) : Bool := p.data.isPrefixOf s.data

/-- `optional().isIn(allowed)`: an absent field passes, a present one (even the
empty string) must be a member of the allowed list. -/
def optIn (v : Option String) (allowed : List String) : Bool :=
  match v with
  | none => true
  | some s => allowed.contains s

/-- The validator chain of `GET /api/tasks` (lines 17-21 of tasks.js). -/
def validListQuery (q : ListQuery) : Bool :=
  optIn q.status statusEnum && optIn q.priority priorityEnum &&
  optIn q.sortBy sortByEnum && optIn q.sortOrder sortOrderEnum

/-- Helper for case-insensitive substring containment: does `needle` occur as a
contiguous sublist of `hay`? -/
def containsAux (needle : List Char) : List Char → Bool
  | [] => needle.isEmpty
  | c :: t => needle.isPrefixOf (c :: t) || containsAux needle t

/-- Is `c` a regex metacharacter (PCRE, outside a character class)?  The brace
characters are matched by code point (123 and 125). -/
def regexMeta (c : Char) : Bool :=
  c == '\\' || c == '^' || c == '$' || c == '.' || c == '[' || c == ']' ||
  c == '|' || c == '(' || c == ')' || c == '*' || c == '+' || c == '?' ||
  c.toNat == 123 || c.toNat == 125

/-- A pattern the store's regex engine matches literally: no character is a
regex metacharacter. -/
def noRegexMeta (s : String) : Bool := !s.data.any regexMeta

/-- `{$regex: needle, $options: 'i'}` against field `hay`, for metacharacter-free
patterns (`noRegexMeta needle`): case-insensitive literal substring match
(ASCII lower-casing).  For patterns containing metacharacters the store
interprets the regex syntax instead; that domain is outside this model, and
every theorem below that touches the search filter either uses a concrete
metacharacter-free pattern or restricts the quantified pattern by
`noRegexMeta`. -/
def strContainsCI (hay needle : String) : Bool :=
  containsAux (needle.data.map Char.toLower) (hay.data.map Char.toLower)

/-- The filter the route builds (lines 36-51): owner restriction, exact status
and priority matches when the (validated) parameter is truthy, and a
case-insensitive `$or` search over title and description.  `search` has been
trimmed by the `query('search').optional().trim()` sanitizer. -/
def taskMatches (uid : String) (q : ListQuery) (t : Task) : Bool :=
  (t.user == uid)
  && (if (q.status.getD "") != "" then t.status == q.status.getD "" else true)
  && (if (q.priority.getD "") != "" then t.priority == q.priority.getD "" else true)
  && (if trimStr (q.search.getD "") != "" then
        strContainsCI t.title (trimStr (q.search.getD ""))
          || strContainsCI t.description (trimStr (q.search.getD ""))
      else true)

/-- Mongo comparison of the nullable `dueDate` field: null sorts before any
date. -/
def optIntLe (a b : Option Int) : Bool :=
  match a, b with
  | none, _ => true
  | some _, none => false
  | some x, some y => decide (x ≤ y)

/-- Field comparison for the validated `sortBy` values; the default branch is
`createdAt` (the destructuring default at line 33). -/
def fieldLe (sortBy : String) (a b : Task) : Bool :=
  if sortBy == "dueDate" then optIntLe a.dueDate b.dueDate
  else if sortBy == "priority" then strLe a.priority b.priority
  else if sortBy == "title" then strLe a.title b.title
  else decide (a.createdAt ≤ b.createdAt)

/-- `sort[sortBy] = sortOrder === 'asc' ? 1 : -1` (line 55): ascending uses the
field order, anything else descends. -/
def sortLe (sortBy sortOrder : String) (a b : Task) : Bool :=
  if sortOrder == "asc" then fieldLe sortBy a b else fieldLe sortBy b a

/-- Insert into a sorted list (helper for the store's sort). -/
def insertLe {α : Type} (le : α → α → Bool) (a : α) : List α → List α
  | [] => [a]
  | b :: bs => if le a b then a :: b :: bs else b :: insertLe le a bs

/-- Stable insertion sort modelling `Task.find(filter).sort(sort)`. -/
def sortByLe {α : Type} (le : α → α → Bool) : List α → List α
  | [] => []
  | a :: as => insertLe le a (sortByLe le as)

/-- `GET /api/tasks` (lines 14-67): validate the query, filter the store by
owner plus the requested filters, sort by the requested field and direction,
and return the matching tasks (the route also returns their count). -/
def listTasks (uid : String) (q : ListQuery) (store : List Task) :
    Except ErrorResp (List Task) :=
  if !validListQuery q then .error .validationError
  else
    .ok (sortByLe (sortLe (q.sortBy.getD "createdAt") (q.sortOrder.getD "desc"))
      (store.filter (taskMatches uid q)))

/-- `findOne({_id: taskId, user: uid})`: first stored task matching both the id
and the owner. -/
def findTask (uid taskId : String) (store : List Task) : Option Task :=
  store.find? (fun t => t.id == taskId && t.user == uid)

/-- `GET /api/tasks/:id` (lines 72-94): owner-scoped lookup; a missing or
foreign-owned task yields 404. -/
def getTask (uid taskId : String) (store : List Task) : Except ErrorResp Task :=
  match findTask uid taskId store with
  | none => .error .notFound
  | some t => .ok t

/-- Request body of `POST /api/tasks` and `PUT /api/tasks/:id`; absent fields
are `none`.  `user` models a client-supplied owner field in the JSON body
(not one of the validated fields).  `dueDate` is the already-parsed date; the
ISO-8601 string check of `body('dueDate').optional().isISO8601()` is the
validator library's and is not modelled. -/
structure TaskBody where
  title : Option String := none
  description : Option String := none
  status : Option String := none
  priority : Option String := none
  dueDate : Option Int := none
  user : Option String := none
deriving DecidableEq, Repr

/-- `body('title').trim().notEmpty().isLength({max: 200})` on the create route:
an absent title is sanitized to the empty string and fails `notEmpty`. -/
def validTitleCreate (title : Option String) : Bool :=
  trimStr (title.getD "") != "" && decide ((trimStr (title.getD "")).length ≤ 200)

/-- `body('description').optional().trim().isLength({max: 1000})`. -/
def validDescription (d : Option String) : Bool :=
  match d with
  | none => true
  | some s => decide ((trimStr s).length ≤ 1000)

/-- Validator chain of `POST /api/tasks` (lines 101-122). -/
def validCreateBody (b : TaskBody) : Bool :=
  validTitleCreate b.title && validDescription b.description &&
  optIn b.status statusEnum && optIn b.priority priorityEnum

/-- Validator chain of `PUT /api/tasks/:id` (lines 155-180): same as create
except `title` is optional (but must be non-empty when present). -/
def validUpdateBody (b : TaskBody) : Bool :=
  (match b.title with
   | none => true
   | some s => trimStr s != "" && decide ((trimStr s).length ≤ 200))
  && validDescription b.description &&
  optIn b.status statusEnum && optIn b.priority priorityEnum

/-- `POST /api/tasks` (lines 99-148): validate, then persist
`{...req.body, user: req.user.id}` — the authenticated id overrides any
`user` value in the body; the schema defaults fill `status`/`priority`.
Returns the created task and the new store; on validation failure the store
is returned unchanged. -/
def createTask (uid newId : String) (now : Int) (b : TaskBody)
    (store : List Task) : Except ErrorResp Task × List Task :=
  if !validCreateBody b then (.error .validationError, store)
  else
    let t : Task :=
      { id := newId
        title := trimStr (b.title.getD "")
        description := ((b.description.map trimStr).getD "")
        status := b.status.getD "todo"
        priority := b.priority.getD "medium"
        dueDate := b.dueDate
        user := uid
        createdAt := now }
    (.ok t, store ++ [t])

/-- `findByIdAndUpdate(req.params.id, req.body, ...)`: applies every provided
body field to the stored document — including the schema field `user`, which
the update route does not strip or override. -/
def applyUpdate (b : TaskBody) (t : Task) : Task :=
  { t with
    title := (b.title.map trimStr).getD t.title
    description := (b.description.map trimStr).getD t.description
    status := b.status.getD t.status
    priority := b.priority.getD t.priority
    dueDate := if b.dueDate.isSome then b.dueDate else t.dueDate
    user := b.user.getD t.user }

/-- `PUT /api/tasks/:id` (lines 153-225): validate, owner-scoped `findOne`
(404 when absent), then `findByIdAndUpdate` by id with the raw body.  Returns
the updated task and the updated store. -/
def updateTask (uid taskId : String) (b : TaskBody) (store : List Task) :
    Except ErrorResp Task × List Task :=
  if !validUpdateBody b then (.error .validationError, store)
  else
    match findTask uid taskId store with
    | none => (.error .notFound, store)
    | some t =>
      (.ok (applyUpdate b t),
       store.map (fun u => if u.id == taskId then applyUpdate b u else u))

/-- `DELETE /api/tasks/:id` (lines 230-256): owner-scoped `findOne` (404 when
absent), then `findByIdAndDelete` by id. -/
def deleteTask (uid taskId : String) (store : List Task) :
    Except ErrorResp Unit × List Task :=
  match findTask uid taskId store with
  | none => (.error .notFound, store)
  | some _ => (.ok (), store.filter (fun t => !(t.id == taskId)))

/-- User record resolved by the auth middleware (password excluded by
`.select('-password')`). -/
structure User where
  id : String
  name : String
  email : String
deriving DecidableEq, Repr

/-- Token extraction of `protect` (lines 314-316): the header must start with
`Bearer` and the token is the second space-separated component. -/
def extractToken (authHeader : Option String) : Option String :=
  match authHeader with
  | none => none
  | some h => if startsWithStr h "Bearer" then (splitSpace h).get? 1 else none

/-- `protect` middleware (lines 309-346): extract the bearer token (falsy →
401), verify it (`jwt.verify`, abstracted as the `verify` argument; any throw
→ 401), and resolve the decoded id against the user store (missing user →
401).  `none` is the 401 rejection with no identity attached. -/
def protect (verify : String → Option String) (users : List User)
    (authHeader : Option String) : Option User :=
  match extractToken authHeader with
  | none => none
  | some tk =>
    if tk == "" then none
    else
      match verify tk with
      | none => none
      | some decodedId => users.find? (fun u => u.id == decodedId)

/-- `router.use(protect)` composition: every task/profile route first runs the
auth gate; a rejected request gets 401 and the handler (and hence the store)
is never touched. -/
def protectedRoute {α : Type} (verify : String → Option String)
    (users : List User) (authHeader : Option String)
    (handler : String → List Task → Except ErrorResp α × List Task)
    (store : List Task) : Except ErrorResp α × List Task :=
  match protect verify users authHeader with
  | none => (.error .unauthenticated, store)
  | some u => handler u.id store

/-- Payload of a signed token: the encoded user id and the expiry instant. -/
structure TokenPayload where
  id : String
  exp : Nat
deriving DecidableEq, Repr

/-- A presented token: either structurally well-formed (a payload plus a
signature value) or malformed. -/
inductive JwtToken where
  | wellFormed (payload : TokenPayload) (sig : Nat)
  | malformed (raw : String)
deriving DecidableEq, Repr

/-- The single failure outcome of token verification. -/
inductive TokenError where
  | invalidToken
deriving DecidableEq, Repr

/-- Modelled from the spec: `jwt.verify` of the `jsonwebtoken` library (the
Token Service's `verify`, §4.1) is not part of this repository's sources —
`src` only contains its caller in `protect`.  Per the spec it returns the
decoded user identifier exactly when the signature is valid under the secret
and the token is unexpired, and fails with the single `InvalidToken` outcome
otherwise (malformed, unsigned/tampered, or expired alike).  `sign` abstracts
the HMAC over the payload. -/
def verifyToken (sign : String → TokenPayload → Nat) (secret : String)
    (now : Nat) : JwtToken → Except TokenError String
  | .malformed _ => .error .invalidToken
  | .wellFormed p s =>
    if s == sign secret p && decide (now < p.exp) then .ok p.id
    else .error .invalidToken

/-! ### Generic lemmas about the insertion sort and the search helper -/

theorem mem_insertLe {α : Type} (le : α → α → Bool) (a x : α) :
    ∀ l : List α, x ∈ insertLe le a l ↔ x = a ∨ x ∈ l := by
  intro l
  induction l with
  | nil => simp [insertLe]
  | cons b bs ih =>
    by_cases h : le a b = true
    · simp [insertLe, h, List.mem_cons]
    · simp only [insertLe, if_neg h, List.mem_cons, ih]
      tauto

theorem mem_sortByLe {α : Type} (le : α → α → Bool) (x : α) :
    ∀ l : List α, x ∈ sortByLe le l ↔ x ∈ l := by
  intro l
  induction l with
  | nil => simp [sortByLe]
  | cons a as ih =>
    simp [sortByLe, mem_insertLe, ih, List.mem_cons]

theorem pairwise_insertLe {α : Type} (le : α → α → Bool)
    (htot : ∀ a b, le a b = true ∨ le b a = true)
    (htrans : ∀ a b c, le a b = true → le b c = true → le a c = true)
    (a : α) :
    ∀ l : List α, l.Pairwise (fun x y => le x y = true) →
      (insertLe le a l).Pairwise (fun x y => le x y = true) := by
  intro l
  induction l with
  | nil => simp [insertLe]
  | cons b bs ih =>
    intro hp
    rw [List.pairwise_cons] at hp
    by_cases h : le a b = true
    · rw [insertLe, if_pos h, List.pairwise_cons]
      refine ⟨?_, List.pairwise_cons.mpr hp⟩
      intro x hx
      rcases List.mem_cons.mp hx with rfl | hx
      · exact h
      · exact htrans a b x h (hp.1 x hx)
    · rw [insertLe, if_neg h, List.pairwise_cons]
      refine ⟨?_, ih hp.2⟩
      intro x hx
      rcases (mem_insertLe le a x bs).mp hx with hxa | hx
      · rcases htot a b with hab | hba
        · exact absurd hab h
        · exact hxa ▸ hba
      · exact hp.1 x hx

theorem pairwise_sortByLe {α : Type} (le : α → α → Bool)
    (htot : ∀ a b, le a b = true ∨ le b a = true)
    (htrans : ∀ a b c, le a b = true → le b c = true → le a c = true) :
    ∀ l : List α, (sortByLe le l).Pairwise (fun x y => le x y = true) := by
  intro l
  induction l with
  | nil => simp [sortByLe]
  | cons a as ih => exact pairwise_insertLe le htot htrans a _ ih

theorem charListLe_total :
    ∀ a b : List Char, charListLe a b = true ∨ charListLe b a = true := by
  intro a
  induction a with
  | nil => intro b; left; rfl
  | cons x xs ih =>
    intro b
    cases b with
    | nil => right; rfl
    | cons y ys =>
      by_cases hxy : x < y
      · left; simp [charListLe, hxy]
      · by_cases hyx : y < x
        · right; simp [charListLe, hyx]
        · have heq : x = y := le_antisymm (not_lt.mp hyx) (not_lt.mp hxy)
          subst heq
          rcases ih ys with h | h
          · left; simp [charListLe, lt_irrefl, h]
          · right; simp [charListLe, lt_irrefl, h]

theorem charListLe_trans :
    ∀ a b c : List Char, charListLe a b = true → charListLe b c = true →
      charListLe a c = true := by
  intro a
  induction a with
  | nil => intro b c _ _; rfl
  | cons x xs ih =>
    intro b c hab hbc
    cases b with
    | nil => simp [charListLe] at hab
    | cons y ys =>
      cases c with
      | nil => simp [charListLe] at hbc
      | cons z zs =>
        by_cases hxy : x < y
        · by_cases hyz : y < z
          · simp [charListLe, lt_trans hxy hyz]
          · by_cases hzy : z < y
            · simp [charListLe, hyz, hzy] at hbc
            · have heq : y = z := le_antisymm (not_lt.mp hzy) (not_lt.mp hyz)
              subst heq
              simp [charListLe, hxy]
        · by_cases hyx : y < x
          · simp [charListLe, hxy, hyx] at hab
          · have heq : x = y := le_antisymm (not_lt.mp hyx) (not_lt.mp hxy)
            subst heq
            simp only [charListLe, if_neg (lt_irrefl x)] at hab
            by_cases hyz : x < z
            · simp [charListLe, hyz]
            · by_cases hzy : z < x
              · simp [charListLe, hyz, hzy] at hbc
              · have heq2 : x = z := le_antisymm (not_lt.mp hzy) (not_lt.mp hyz)
                subst heq2
                simp only [charListLe, if_neg (lt_irrefl x)] at hbc ⊢
                exact ih ys zs hab hbc

theorem strLe_total (a b : String) : strLe a b = true ∨ strLe b a = true :=
  charListLe_total a.data b.data

theorem strLe_trans (a b c : String) :
    strLe a b = true → strLe b c = true → strLe a c = true :=
  charListLe_trans a.data b.data c.data

theorem containsAux_nil_needle : ∀ l : List Char, containsAux [] l = true := by
  intro l
  cases l with
  | nil => rfl
  | cons c t => simp [containsAux, List.isPrefixOf]

theorem strContainsCI_empty_needle (hay : String) :
    strContainsCI hay "" = true :=
  containsAux_nil_needle _

theorem trimStr_empty : trimStr "" = "" := rfl

/-! ### Claim theorems -/

/-- Claim C10: a list request that supplies `status` or `priority` as the empty
string fails with `ValidationError` (400) — `optional()` skips only an absent
parameter, so the empty string is validated against the enum and rejected. -/
theorem listTasks_empty_enum_rejected (uid : String) (store : List Task)
    (q : ListQuery) :
    listTasks uid { q with status := some "" } store = .error .validationError
    ∧ listTasks uid { q with priority := some "" } store = .error .validationError
    ∧ ErrorResp.validationError.statusCode = 400 := by
  refine ⟨?_, ?_, rfl⟩
  · have h : validListQuery { q with status := some "" } = false := by
      simp [validListQuery, optIn, statusEnum]
    simp [listTasks, h]
  · have h : validListQuery { q with priority := some "" } = false := by
      simp [validListQuery, optIn, priorityEnum]
    simp [listTasks, h]

/-- Claim C7: a create request whose title is empty after trimming, or longer
than 200 characters after trimming, fails with `ValidationError` (400) and the
store is unchanged — validation runs before `Task.create`. -/
theorem createTask_invalid_title (uid newId : String) (now : Int) (b : TaskBody)
    (store : List Task) (title : String) (hb : b.title = some title)
    (h : trimStr title = "" ∨ 200 < (trimStr title).length) :
    createTask uid newId now b store = (.error .validationError, store)
    ∧ ErrorResp.validationError.statusCode = 400 := by
  have hv : validTitleCreate b.title = false := by
    rw [hb]
    rcases h with h | h
    · simp [validTitleCreate, h]
    · simp [validTitleCreate, Nat.not_le.mpr h]
  have hv2 : validCreateBody b = false := by
    simp [validCreateBody, hv]
  refine ⟨?_, rfl⟩
  simp [createTask, hv2]

/-- Witness for C7 at a concrete input: a title that trims to the empty
string is rejected and the store is untouched. -/
theorem createTask_invalid_title_witness :
    createTask "u1" "t9" 0 { title := some "   " } [] =
      (.error .validationError, [])
    ∧ ErrorResp.validationError.statusCode = 400 :=
  createTask_invalid_title "u1" "t9" 0 { title := some "   " } [] "   " rfl
    (Or.inl rfl)

/-- Claim C9: the persisted task of a create request is owned by the
authenticated user: `{...req.body, user: req.user.id}` overrides any `user`
value the body supplies. -/
theorem createTask_owner_from_auth (uid newId : String) (now : Int)
    (b : TaskBody) (store store2 : List Task) (t : Task)
    (h : createTask uid newId now b store = (.ok t, store2)) :
    t.user = uid := by
  unfold createTask at h
  by_cases hv : validCreateBody b = true
  · simp only [hv, Bool.not_true, Bool.false_eq_true, if_false] at h
    have ht := congrArg Prod.fst h
    simp only at ht
    cases ht
    rfl
  · simp only [Bool.not_eq_true] at hv
    simp [hv] at h

/-- Witness for C9 at a concrete input: the body names `mallory` as owner but
the stored task is owned by the authenticated `alice`. -/
theorem createTask_owner_from_auth_witness :
    ({ id := "t1", title := "Prep", description := "", status := "todo",
       priority := "medium", dueDate := none, user := "alice",
       createdAt := 0 } : Task).user = "alice" :=
  createTask_owner_from_auth "alice" "t1" 0
    { title := some "Prep", user := some "mallory" } []
    [{ id := "t1", title := "Prep", description := "", status := "todo",
       priority := "medium", dueDate := none, user := "alice", createdAt := 0 }]
    { id := "t1", title := "Prep", description := "", status := "todo",
      priority := "medium", dueDate := none, user := "alice", createdAt := 0 }
    rfl

/-- A task owned by `userA`, as created (used to exhibit the owner-rewrite
behaviour of the update route). -/
def taskA : Task :=
  { id := "t1", title := "Report", description := "", status := "todo",
    priority := "medium", dueDate := none, user := "userA", createdAt := 0 }

/-- Claim C2 is violated by the code: `PUT /api/tasks/:id` passes `req.body`
straight to `findByIdAndUpdate`, and `user` is a schema field, so a body
carrying `user` rewrites the owner.  Here the owner `userA` successfully
updates their own task with `{user: "userB"}` and the stored owner becomes
`userB`, different from its value at creation. -/
theorem updateTask_owner_overwritten :
    (updateTask "userA" "t1" { user := some "userB" } [taskA]).1
      = .ok { taskA with user := "userB" }
    ∧ (updateTask "userA" "t1" { user := some "userB" } [taskA]).2
      = [{ taskA with user := "userB" }]
    ∧ ({ taskA with user := "userB" } : Task).user ≠ taskA.user := by
  refine ⟨rfl, rfl, ?_⟩
  decide

/-- Claim C4: for an operation by `uidA` on a task id that no task owned by
`uidA` carries — which covers both a nonexistent id and an id owned by some
other user — `get`, `update` and `delete` all fail with the same `NotFound`
(404, not `Unauthenticated`) and the store is unchanged. -/
theorem foreign_task_notFound (uidA taskId : String) (store : List Task)
    (b : TaskBody) (hb : validUpdateBody b = true)
    (h : ∀ t ∈ store, t.id = taskId → t.user ≠ uidA) :
    getTask uidA taskId store = .error .notFound
    ∧ updateTask uidA taskId b store = (.error .notFound, store)
    ∧ deleteTask uidA taskId store = (.error .notFound, store)
    ∧ ErrorResp.notFound ≠ ErrorResp.unauthenticated
    ∧ ErrorResp.notFound.statusCode = 404 := by
  have hf : findTask uidA taskId store = none := by
    apply List.find?_eq_none.mpr
    intro t ht hpred
    rw [Bool.and_eq_true, beq_iff_eq, beq_iff_eq] at hpred
    exact h t ht hpred.1 hpred.2
  refine ⟨?_, ?_, ?_, by simp, rfl⟩
  · simp [getTask, hf]
  · simp [updateTask, hb, hf]
  · simp [deleteTask, hf]

/-- A task owned by `userB`, used only to witness the C4 theorem. -/
def taskB : Task :=
  { id := "t1", title := "Plan", description := "", status := "todo",
    priority := "low", dueDate := none, user := "userB", createdAt := 0 }

/-- Witness for C4 at a concrete input: `userA` operating on `t1`, which is
owned by `userB`, gets 404 from all three operations and the store keeps the
foreign task. -/
theorem foreign_task_notFound_witness :
    getTask "userA" "t1" [taskB] = .error .notFound
    ∧ updateTask "userA" "t1" { status := some "completed" } [taskB]
        = (.error .notFound, [taskB])
    ∧ deleteTask "userA" "t1" [taskB] = (.error .notFound, [taskB])
    ∧ ErrorResp.notFound ≠ ErrorResp.unauthenticated
    ∧ ErrorResp.notFound.statusCode = 404 :=
  foreign_task_notFound "userA" "t1" [taskB] { status := some "completed" }
    (by decide) (by decide)

/-- Claim C5: a protected request whose authorization header is absent, whose
token fails verification, or whose verified token decodes to a nonexistent
user, is rejected by the auth gate with `Unauthenticated` (401): no identity
is attached and, for every route handler, the handler never runs and the task
store is unchanged. -/
theorem protect_rejects {α : Type} (verify : String → Option String)
    (users : List User) (authHeader : Option String)
    (handler : String → List Task → Except ErrorResp α × List Task)
    (store : List Task)
    (h : authHeader = none
      ∨ (∃ tk, extractToken authHeader = some tk ∧ tk ≠ "" ∧ verify tk = none)
      ∨ (∃ tk uid, extractToken authHeader = some tk ∧ tk ≠ ""
          ∧ verify tk = some uid ∧ ∀ u ∈ users, u.id ≠ uid)) :
    protect verify users authHeader = none
    ∧ protectedRoute verify users authHeader handler store
        = (.error .unauthenticated, store)
    ∧ ErrorResp.unauthenticated.statusCode = 401 := by
  have hp : protect verify users authHeader = none := by
    rcases h with rfl | ⟨tk, hex, hne, hv⟩ | ⟨tk, uid, hex, hne, hv, hu⟩
    · rfl
    · simp [protect, hex, hne, hv]
    · simp only [protect, hex, hne, hv, if_neg, beq_iff_eq, if_false]
      apply List.find?_eq_none.mpr
      intro u hu2 hpred
      exact hu u hu2 (beq_iff_eq.mp hpred)
  exact ⟨hp, by simp [protectedRoute, hp], rfl⟩

/-- A stored task, used only to witness the C5 theorem. -/
def taskB2 : Task :=
  { id := "t7", title := "Keep", description := "", status := "todo",
    priority := "medium", dueDate := none, user := "userC", createdAt := 0 }

/-- Witness for C5 at a concrete input: a syntactically valid bearer token the
verifier rejects (e.g. expired) yields 401 and leaves the store unchanged,
for a handler that would otherwise wipe the store. -/
theorem protect_rejects_witness :
    protect (fun _ => none) [] (some "Bearer stale") = none
    ∧ protectedRoute (fun _ => none) [] (some "Bearer stale")
        (fun _ _ => ((.ok () : Except ErrorResp Unit), [])) [taskB2]
        = (.error .unauthenticated, [taskB2])
    ∧ ErrorResp.unauthenticated.statusCode = 401 :=
  protect_rejects (fun _ => none) [] (some "Bearer stale")
    (fun _ _ => ((.ok () : Except ErrorResp Unit), [])) [taskB2]
    (Or.inr (Or.inl ⟨"stale", rfl, by decide, rfl⟩))

/-- Claim C8 (Token Service): verification returns the decoded user identifier
exactly when the token is well-formed, its signature is the one `sign`
produces from the payload under the configured secret, and it is unexpired;
every other token — malformed, unsigned/tampered, or expired — fails with the
single `InvalidToken` outcome, so no cause is distinguishable to the caller. -/
theorem verifyToken_spec (sign : String → TokenPayload → Nat) (secret : String)
    (now : Nat) (tok : JwtToken) :
    (∀ uid, verifyToken sign secret now tok = .ok uid ↔
      ∃ p, tok = .wellFormed p (sign secret p) ∧ now < p.exp ∧ uid = p.id)
    ∧ (∀ e, verifyToken sign secret now tok = .error e → e = .invalidToken) := by
  constructor
  · intro uid
    constructor
    · intro h
      cases tok with
      | malformed raw => simp [verifyToken] at h
      | wellFormed p s =>
        simp only [verifyToken] at h
        by_cases hc : (s == sign secret p && decide (now < p.exp)) = true
        · rw [if_pos hc] at h
          rw [Bool.and_eq_true] at hc
          have hs : s = sign secret p := beq_iff_eq.mp hc.1
          have hexp : now < p.exp := of_decide_eq_true hc.2
          cases h
          exact ⟨p, by rw [hs], hexp, rfl⟩
        · rw [if_neg hc] at h
          cases h
    · rintro ⟨p, rfl, hexp, rfl⟩
      simp [verifyToken, hexp]
  · intro e _
    cases e
    rfl

/-- Witness for C8 at concrete inputs: a correctly signed, unexpired token
decodes to its user id. -/
theorem verifyToken_spec_witness :
    verifyToken (fun _ p => p.exp + 1) "secret" 5
      (.wellFormed { id := "u1", exp := 10 } 11) = .ok "u1" :=
  ((verifyToken_spec (fun _ p => p.exp + 1) "secret" 5
      (.wellFormed { id := "u1", exp := 10 } 11)).1 "u1").mpr
    ⟨{ id := "u1", exp := 10 }, rfl, by decide, rfl⟩

/-- Claim C1: a list request with a (valid) status filter returns exactly the
requesting user's tasks with that status; and for every validated filter
combination, no task of another user is ever returned. -/
theorem listTasks_status_exact (uid s : String) (store : List Task)
    (hs : s ∈ statusEnum) :
    (∃ ts, listTasks uid { status := some s } store = .ok ts
      ∧ ∀ t, t ∈ ts ↔ (t ∈ store ∧ t.user = uid ∧ t.status = s))
    ∧ (∀ q ts, listTasks uid q store = .ok ts → ∀ t ∈ ts, t.user = uid) := by
  have hsne : s ≠ "" := by
    rintro rfl
    simp [statusEnum] at hs
  constructor
  · have hvq : validListQuery { status := some s } = true := by
      simp only [validListQuery, optIn]
      simp [List.elem_eq_true_of_mem hs, statusEnum] at hs ⊢
      exact hs
    refine ⟨sortByLe (sortLe "createdAt" "desc")
        (store.filter (taskMatches uid { status := some s })), ?_, ?_⟩
    · simp [listTasks, hvq]
    · intro t
      rw [mem_sortByLe, List.mem_filter]
      have hmatch : taskMatches uid { status := some s } t = true ↔
          (t.user = uid ∧ t.status = s) := by
        simp only [taskMatches, Option.getD_none, Option.getD_some,
          trimStr_empty, bne_self_eq_false, Bool.false_eq_true, if_false,
          Bool.and_true]
        rw [if_pos (bne_iff_ne.mpr hsne)]
        simp [Bool.and_eq_true]
      rw [hmatch]
  · intro q ts hok t ht
    unfold listTasks at hok
    by_cases hvq2 : validListQuery q = true
    · simp only [hvq2, Bool.not_true, Bool.false_eq_true, if_false] at hok
      cases hok
      rw [mem_sortByLe, List.mem_filter] at ht
      have hm := ht.2
      simp only [taskMatches, Bool.and_eq_true] at hm
      exact beq_iff_eq.mp hm.1.1.1
    · simp only [Bool.not_eq_true] at hvq2
      simp [hvq2] at hok

/-- Tasks of two users, used only to witness the C1 theorem. -/
def tasksC1 : List Task :=
  [{ id := "a1", title := "Done one", description := "", status := "completed",
     priority := "low", dueDate := none, user := "u1", createdAt := 1 },
   { id := "a2", title := "Open one", description := "", status := "todo",
     priority := "low", dueDate := none, user := "u1", createdAt := 2 },
   { id := "a3", title := "Foreign", description := "", status := "completed",
     priority := "low", dueDate := none, user := "u2", createdAt := 3 }]

/-- Witness for C1 at a concrete input: user `u1` filtering on `completed`
over a store that also holds a foreign completed task. -/
theorem listTasks_status_exact_witness :
    (∃ ts, listTasks "u1" { status := some "completed" } tasksC1 = .ok ts
      ∧ ∀ t, t ∈ ts ↔ (t ∈ tasksC1 ∧ t.user = "u1" ∧ t.status = "completed"))
    ∧ (∀ q ts, listTasks "u1" q tasksC1 = .ok ts → ∀ t ∈ ts, t.user = "u1") :=
  listTasks_status_exact "u1" "completed" tasksC1 (by decide)

/-- The task returned against claim C3's raw-string reading, used only by the
C3 counterexample. -/
def taskC3 : Task :=
  { id := "t3", title := "Specs", description := "", status := "todo",
    priority := "medium", dueDate := none, user := "u1", createdAt := 0 }

/-- Counterexample to claim C3 as stated: with the raw search string
`" spec"` (leading space) the task titled `"Specs"` IS returned — the
validator chain's `.trim()` sanitizer rewrites the parameter to `"spec"`
before the filter is built — although `" spec"` does not occur
case-insensitively as a literal substring of the title or the description. -/
theorem listTasks_search_raw_counterexample :
    listTasks "u1" { search := some " spec" } [taskC3] = .ok [taskC3]
    ∧ strContainsCI taskC3.title " spec" = false
    ∧ strContainsCI taskC3.description " spec" = false :=
  ⟨rfl, rfl, rfl⟩

/-- Claim C3 amended: for every search string `s` whose trimmed form is free
of regex metacharacters — the fragment on which the store's `$regex` is
literal matching, stated by the `noRegexMeta` hypothesis — a task owned by
the requesting user appears in the result of a list request with `search=s`
if and only if the TRIMMED search string occurs, compared case-insensitively,
as a literal substring of the task's title or of its description (the
sanitizer trims `s` before the filter is built; an all-whitespace `s` trims
to the empty string, which occurs in every string, matching the route's
skipping of the filter). -/
theorem listTasks_search_trimmed (uid s : String) (store : List Task)
    (_hlit : noRegexMeta (trimStr s) = true) :
    ∃ ts, listTasks uid { search := some s } store = .ok ts
      ∧ ∀ t, t ∈ ts ↔ (t ∈ store ∧ t.user = uid
        ∧ (strContainsCI t.title (trimStr s)
            || strContainsCI t.description (trimStr s)) = true) := by
  have hvq : validListQuery { search := some s } = true := by
    simp [validListQuery, optIn]
  refine ⟨sortByLe (sortLe "createdAt" "desc")
      (store.filter (taskMatches uid { search := some s })), ?_, ?_⟩
  · simp [listTasks, hvq]
  · intro t
    rw [mem_sortByLe, List.mem_filter]
    have hmatch : taskMatches uid { search := some s } t = true ↔
        (t.user = uid
          ∧ (strContainsCI t.title (trimStr s)
              || strContainsCI t.description (trimStr s)) = true) := by
      by_cases hts : trimStr s = ""
      · simp [taskMatches, hts, strContainsCI_empty_needle, trimStr_empty]
      · simp only [taskMatches, Option.getD_none, Option.getD_some,
          trimStr_empty, bne_self_eq_false, Bool.false_eq_true, if_false,
          Bool.and_true]
        rw [if_pos (bne_iff_ne.mpr hts)]
        simp [Bool.and_eq_true]
    rw [hmatch]

/-- Witness for the amended C3 at a concrete input: the pattern `" plan "`
trims to the metacharacter-free `"plan"`. -/
theorem listTasks_search_trimmed_witness :
    noRegexMeta (trimStr " plan ") = true
    ∧ ∃ ts, listTasks "u9" { search := some " plan " } [] = .ok ts
      ∧ ∀ t, t ∈ ts ↔ (t ∈ ([] : List Task) ∧ t.user = "u9"
        ∧ (strContainsCI t.title (trimStr " plan ")
            || strContainsCI t.description (trimStr " plan ")) = true) :=
  ⟨by decide, listTasks_search_trimmed "u9" " plan " [] (by decide)⟩

theorem fieldLe_priority (a b : Task) :
    fieldLe "priority" a b = strLe a.priority b.priority := rfl

theorem sortLe_priority_asc (a b : Task) :
    sortLe "priority" "asc" a b = strLe a.priority b.priority := rfl

theorem sortLe_priority_not_asc (ord : String) (hne : ord ≠ "asc")
    (a b : Task) : sortLe "priority" ord a b = strLe b.priority a.priority := by
  have h : (ord == "asc") = false := beq_eq_false_iff_ne.mpr hne
  simp only [sortLe, h, Bool.false_eq_true, if_false]
  exact fieldLe_priority b a

/-- Claim C6: with `sortBy=priority` the returned tasks are ordered by plain
lexicographic string comparison of the priority values in the requested
direction (default descending), so ascending order is
`high < low < medium` — not the severity rank `low < medium < high`. -/
theorem listTasks_priority_lexical (uid : String) (q : ListQuery)
    (store ts : List Task) (hsort : q.sortBy = some "priority")
    (hok : listTasks uid q store = .ok ts) :
    ((q.sortOrder.getD "desc" = "asc" →
        ts.Pairwise (fun a b => strLe a.priority b.priority = true))
      ∧ (q.sortOrder.getD "desc" ≠ "asc" →
        ts.Pairwise (fun a b => strLe b.priority a.priority = true)))
    ∧ strLe "high" "low" = true ∧ strLe "low" "medium" = true
    ∧ strLe "medium" "low" = false ∧ strLe "low" "high" = false := by
  refine ⟨?_, rfl, rfl, rfl, rfl⟩
  unfold listTasks at hok
  by_cases hvq : validListQuery q = true
  · simp only [hvq, Bool.not_true, Bool.false_eq_true, if_false, hsort,
      Option.getD_some] at hok
    cases hok
    constructor
    · intro hasc
      rw [hasc]
      have hp := pairwise_sortByLe (sortLe "priority" "asc")
        (fun a b => by
          rw [sortLe_priority_asc, sortLe_priority_asc]
          exact strLe_total _ _)
        (fun a b c hab hbc => by
          rw [sortLe_priority_asc] at hab hbc ⊢
          exact strLe_trans _ _ _ hab hbc)
        (store.filter (taskMatches uid q))
      exact hp.imp (fun h => by rwa [sortLe_priority_asc] at h)
    · intro hne
      have hp := pairwise_sortByLe (sortLe "priority" (q.sortOrder.getD "desc"))
        (fun a b => by
          rw [sortLe_priority_not_asc _ hne, sortLe_priority_not_asc _ hne]
          exact strLe_total _ _)
        (fun a b c hab hbc => by
          rw [sortLe_priority_not_asc _ hne] at hab hbc ⊢
          exact strLe_trans _ _ _ hbc hab)
        (store.filter (taskMatches uid q))
      exact hp.imp (fun h => by rwa [sortLe_priority_not_asc _ hne] at h)
  · simp only [Bool.not_eq_true] at hvq
    simp [hvq] at hok

/-- Three tasks of one user with distinct priorities, used only to witness the
C6 theorem. -/
def tasksC6 : List Task :=
  [{ id := "p1", title := "One", description := "", status := "todo",
     priority := "low", dueDate := none, user := "u1", createdAt := 1 },
   { id := "p2", title := "Two", description := "", status := "todo",
     priority := "high", dueDate := none, user := "u1", createdAt := 2 },
   { id := "p3", title := "Three", description := "", status := "todo",
     priority := "medium", dueDate := none, user := "u1", createdAt := 3 }]

/-- Witness for C6 at a concrete input: ascending priority sort over
low/high/medium tasks (the route returns them in the lexical order
high, low, medium). -/
theorem listTasks_priority_lexical_witness :
    (((some "asc" : Option String).getD "desc" = "asc" →
        (sortByLe (sortLe "priority" "asc")
            (tasksC6.filter (taskMatches "u1"
              { sortBy := some "priority", sortOrder := some "asc" }))).Pairwise
          (fun a b => strLe a.priority b.priority = true))
      ∧ ((some "asc" : Option String).getD "desc" ≠ "asc" →
        (sortByLe (sortLe "priority" "asc")
            (tasksC6.filter (taskMatches "u1"
              { sortBy := some "priority", sortOrder := some "asc" }))).Pairwise
          (fun a b => strLe b.priority a.priority = true)))
    ∧ strLe "high" "low" = true ∧ strLe "low" "medium" = true
    ∧ strLe "medium" "low" = false ∧ strLe "low" "high" = false :=
  listTasks_priority_lexical "u1"
    { sortBy := some "priority", sortOrder := some "asc" } tasksC6
    (sortByLe (sortLe "priority" "asc")
      (tasksC6.filter (taskMatches "u1"
        { sortBy := some "priority", sortOrder := some "asc" })))
    rfl rfl

end TaskMgmt
